import Mathlib

/-!
promilkdairy: the service worker and its bootstrap hook.

A shallow embedding of `static/service-worker.js` and `static/js/pwa.js`.

The two scripts are straight-line compositions of browser operations
(`caches.open`, `Cache.addAll`, `caches.match`, `fetch`,
`navigator.serviceWorker.register`, `addEventListener`) chained with
`.then` / `.catch`.  The browser is not code of the repository: the first
section fixes a small sequential model of the operations the scripts call,
each marked as modelled, with the words of the specification it follows.
The second and third sections transcribe the two scripts on top of that
model, expression by expression, and the theorems follow.
-/

namespace MilkDiary

/-! ## Browser platform model -/

/-- A request is identified by its URL (all requests of the two scripts are
plain GET requests). -/
abbrev Url := String

/-- A response as delivered by the network or stored in a cache. -/
structure Response where
  status : Nat
  body : String
deriving DecidableEq

/-- The `ok` flag of a response: status in the range 200..299. -/
def Response.ok (r : Response) : Bool :=
  decide (200 ≤ r.status) && decide (r.status ≤ 299)

/-- One cache bucket: stored request/response pairs, oldest first. -/
abbrev Cache := List (Url × Response)

/-- The cache storage of the origin: named buckets in creation order. -/
abbrev CacheStorage := List (String × Cache)

/-- What the worker can change or cause: the cache storage, and the log of
network calls initiated so far (oldest first). Its length is the
network-call counter. -/
structure World where
  caches : CacheStorage
  netLog : List Url
deriving DecidableEq

/-- The network: for each URL either a response, or `none` when the fetch
fails (unreachable resource). -/
abbrev Net := Url → Option Response

/-- A settled promise: fulfilled with a value or rejected with a reason. -/
inductive Settled (α : Type) where
  | fulfilled (value : α)
  | rejected (reason : String)
deriving DecidableEq

/-- An asynchronous operation over a state `σ`, run to completion: the way
the promise settles, and the state it leaves behind. -/
abbrev Promise (σ α : Type) := σ → Settled α × σ

/-- A promise already fulfilled with `v` -/
def Promise.resolve {σ α : Type} (v : α) : Promise σ α :=
  fun s => (Settled.fulfilled v, s)

/-- The chain `p.then(f)`: when `p` is fulfilled the callback runs on its
value and the chain settles as the callback's result does; a rejection of
`p` passes through and the callback does not run. -/
def Promise.andThen {σ α β : Type} (p : Promise σ α) (f : α → Promise σ β) : Promise σ β :=
  fun s =>
    match p s with
    | (Settled.fulfilled v, s1) => f v s1
    | (Settled.rejected e, s1) => (Settled.rejected e, s1)

/-- The chain `p.catch(g)`: a fulfilled `p` passes through; when `p` is
rejected the handler runs on the reason and the chain settles as the
handler's result does. -/
def Promise.catchWith {σ α : Type} (p : Promise σ α) (g : String → Promise σ α) : Promise σ α :=
  fun s =>
    match p s with
    | (Settled.fulfilled v, s1) => (Settled.fulfilled v, s1)
    | (Settled.rejected e, s1) => g e s1

/-- The entries of the bucket called `name` in the storage model; a bucket
that does not exist has no entries. -/
def bucketEntries (cs : CacheStorage) (name : String) : Cache :=
  (cs.lookup name).getD []

/-- Replace the contents of the bucket called `name` in the storage model. -/
def setBucket : CacheStorage → String → Cache → CacheStorage
  | [], _, _ => []
  | (n, c0) :: rest, name, c =>
    if n == name then (n, c) :: rest else (n, c0) :: setBucket rest name c

/-- Modelled from the spec: the browser operation `caches.open(name)`, which
the repository calls but does not contain: "opens (creates if absent) the
named cache bucket". The bucket is created empty, and the promise is
fulfilled with a handle on the bucket (its name). -/
def cachesOpen (name : String) : Promise World String :=
  fun w =>
    match w.caches.lookup name with
    | some _ => (Settled.fulfilled name, w)
    | none => (Settled.fulfilled name, { w with caches := w.caches ++ [(name, [])] })

/-- Modelled from the spec: a lookup in one bucket (the browser operation
`cache.match`), "look up a matching stored response in the cache by request
identity": the stored response for the request, if there is one. -/
def cacheMatch (c : Cache) (request : Url) : Option Response :=
  c.lookup request

/-- Modelled from the spec: the browser operation `caches.match(request)`,
which the repository calls but does not contain: "look up a matching stored
response in the cache by request identity". The call is made on the cache
storage of the origin, not on one bucket; the spec does not say how the
buckets are searched, and the model follows the platform: every bucket, in
creation order, the first stored response found, or `none` (JavaScript
`undefined`). The storage is not changed. -/
def cachesMatch (request : Url) : Promise World (Option Response) :=
  fun w => (Settled.fulfilled (w.caches.findSome? (fun b => cacheMatch b.2 request)), w)

/-- The rejection reason of a failed `fetch`. -/
def fetchError : String := "TypeError: Failed to fetch"

/-- How a network call settles, given what the network delivers. -/
def netOutcome : Option Response → Settled Response
  | some r => Settled.fulfilled r
  | none => Settled.rejected fetchError

/-- Modelled from the spec: the browser operation `fetch(request)`, which the
repository calls but does not contain: "perform a live network fetch and
return its response"; a failure is "propagated as a failed network request".
One network call, logged; fulfilled with the response (whatever its status),
rejected when the network fails. -/
def fetch (net : Net) (request : Url) : Promise World Response :=
  fun w => (netOutcome (net request), { w with netLog := w.netLog ++ [request] })

/-- Modelled from the spec: when an asset counts as fetched for `addAll`
("every entry must resolve to a fetchable resource at install time"): the
network delivers a response, and, as on the platform, its status is ok. -/
def fetchedOk (net : Net) (u : Url) : Bool :=
  match net u with
  | some r => r.ok
  | none => false

/-- Modelled from the spec: the fetching half of `addAll`: the responses for
a list of URLs, provided every one of them is fetched successfully. -/
def fetchAll (net : Net) : List Url → Option (List (Url × Response))
  | [] => some []
  | u :: us =>
    match net u with
    | some r => if r.ok then (fetchAll net us).map (fun es => (u, r) :: es) else none
    | none => none

/-- Modelled from the spec: the storing step of `addAll` for one pair (the
platform's `put`): the pair is stored at the end of the bucket and replaces
an entry stored for the same request. -/
def cachePut (c : Cache) (u : Url) (r : Response) : Cache :=
  c.filter (fun e => e.1 != u) ++ [(u, r)]

/-- Modelled from the spec: the browser operation `cache.addAll(urls)` on the
bucket `cacheName`, which the repository calls but does not contain: it
"fetches and stores every URL in the fixed asset list into that bucket", and
"any single asset fetch failure fails the whole install (platform-enforced
all-or-nothing)". A network call is initiated for every URL; if any asset is
not fetched successfully the promise is rejected and nothing is stored;
otherwise all the pairs are stored together. As on the platform, a list that
names a URL twice is rejected too, with nothing stored. -/
def addAll (net : Net) (cacheName : String) (urls : List Url) : Promise World Unit :=
  fun w =>
    let w1 : World := { w with netLog := w.netLog ++ urls }
    match fetchAll net urls with
    | none => (Settled.rejected "TypeError: Request failed", w1)
    | some entries =>
      if urls.Nodup then
        let stored := entries.foldl (fun c e => cachePut c e.1 e.2) (bucketEntries w1.caches cacheName)
        (Settled.fulfilled (), { w1 with caches := setBucket w1.caches cacheName stored })
      else
        (Settled.rejected "InvalidStateError: duplicate requests", w1)

/-! ## `static/service-worker.js` -/

/-- The constant `CACHE` -/
def CACHE : String := "milk-diary-v1"

/-- The constant `ASSETS` -/
def ASSETS : List Url :=
  [ "/",
    "/static/css/app.css",
    "/static/js/pwa.js",
    "/static/manifest.webmanifest" ]

/-- The install listener for a given bucket name and asset list:
`e.waitUntil(caches.open(CACHE).then(c => c.addAll(ASSETS)))`.
The result is the promise handed to `waitUntil`, the completion signal of the
install step. -/
def installListenerWith (cacheName : String) (assets : List Url) (net : Net) : Promise World Unit :=
  Promise.andThen (cachesOpen cacheName) (fun c => addAll net c assets)

/-- The install listener of the script, with its two constants. -/
def installListener (net : Net) : Promise World Unit :=
  installListenerWith CACHE ASSETS net

/-- The fetch listener:
`e.respondWith(caches.match(e.request).then(r => r || fetch(e.request)))`.
The result is the promise handed to `respondWith`, the response to the
request. A stored response is truthy, `undefined` is not. -/
def fetchListener (net : Net) (request : Url) : Promise World Response :=
  Promise.andThen (cachesMatch request) (fun r =>
    match r with
    | some stored => Promise.resolve stored
    | none => fetch net request)

/-! ## `static/js/pwa.js` -/

/-- What the page can observe of the bootstrap hook: the registration calls
made so far (their arguments, oldest first), the console output, and the
errors reported to the page (uncaught errors, unhandled rejections). -/
structure Page where
  registerCalls : List String
  console : List String
  errors : List String
deriving DecidableEq

/-- The registration object a successful `register` is fulfilled with. -/
structure Registration where
  scope : String
deriving DecidableEq

/-- The browser environment of the page: whether `navigator` exposes
`serviceWorker`, and how a registration call for a script URL settles. -/
structure Browser where
  hasServiceWorker : Bool
  registerResult : String → Settled Registration

/-- An event listener, as its effect on the page. -/
abbrev Listener := Page → Page

/-- The listeners attached to `window`, each with its event type, in the
order they were added. -/
abbrev Window := List (String × Listener)

/-- Modelled from the spec: the browser operation
`window.addEventListener(type, listener)`, which the repository calls but
does not contain: the listener is added after those already attached. -/
def addEventListener (win : Window) (type : String) (listener : Listener) : Window :=
  win ++ [(type, listener)]

/-- Modelled from the spec: the browser dispatching one event of the given
type ("runs once per page load"): every listener added for that type runs
once, in order. -/
def dispatchEvent (win : Window) (type : String) (p : Page) : Page :=
  win.foldl (fun q l => if l.1 == type then l.2 q else q) p

/-- Modelled from the spec: the browser operation
`navigator.serviceWorker.register(scriptURL)`, which the repository calls but
does not contain: it "asks the browser runtime to register the worker script",
and its outcome is "an opaque success/failure signal from the platform". One
registration call, logged; it settles as the environment decides. -/
def register (env : Browser) (scriptURL : String) : Promise Page Registration :=
  fun p => (env.registerResult scriptURL,
    { p with registerCalls := p.registerCalls ++ [scriptURL] })

/-- An expression statement whose value is a promise nobody holds: a
rejection left unhandled is reported to the page as an error. -/
def floating {α : Type} (chain : Promise Page α) : Listener :=
  fun p =>
    match chain p with
    | (Settled.fulfilled _, p1) => p1
    | (Settled.rejected e, p1) => { p1 with errors := p1.errors ++ ["Uncaught (in promise) " ++ e] }

/-- The script path passed to `register` -/
def workerPath : String := "/static/service-worker.js"

/-- The load listener:
`navigator.serviceWorker.register('/static/service-worker.js').then(function(reg){}).catch(function(err){})`.
Both callbacks have an empty body (the logging is commented out) and return
`undefined`. -/
def loadListener (env : Browser) : Listener :=
  floating
    (Promise.catchWith
      (Promise.andThen (register env workerPath) (fun _reg => Promise.resolve ()))
      (fun _err => Promise.resolve ()))

/-- The script `pwa.js`:
`if ('serviceWorker' in navigator) { window.addEventListener('load', ...) }` -/
def pwa (env : Browser) (win : Window) : Window :=
  if env.hasServiceWorker then addEventListener win "load" (loadListener env) else win

/-- Modelled from the spec: one page load, "page load → bootstrap hook": the
script runs on a window without listeners, then the browser dispatches the
`load` event once. -/
def pageLoad (env : Browser) (p : Page) : Page :=
  dispatchEvent (pwa env []) "load" p

/-! ## Example data -/

/-- A network that serves every URL except `/missing` -/
def sampleNet : Net :=
  fun u => if u = "/missing" then none else some ⟨200, u⟩

/-- A network on which `/static/js/pwa.js` is unreachable -/
def flakyNet : Net :=
  fun u => if u = "/static/js/pwa.js" then none else some ⟨200, u⟩

/-- A storage without any bucket, and no network call made yet. -/
def freshWorld : World :=
  ⟨[], []⟩

/-- A storage in which `"/"` is stored in a bucket of an older version only. -/
def sampleWorld : World :=
  ⟨[("milk-diary-v0", [("/", ⟨200, "old"⟩)]), ("milk-diary-v1", [])], []⟩

/-! ## The fetch listener -/

/-- The fetch listener never touches the cache storage. -/
theorem fetchListener_caches (net : Net) (request : Url) (w : World) :
    (fetchListener net request w).2.caches = w.caches := by
  unfold fetchListener Promise.andThen cachesMatch
  cases h : w.caches.findSome? (fun b => cacheMatch b.2 request) <;>
    simp [Promise.resolve, fetch]

/-- The fetch listener on a request that the cache lookup does not find. -/
theorem fetchListener_miss (net : Net) (request : Url) (w : World)
    (h : (cachesMatch request w).1 = Settled.fulfilled none) :
    fetchListener net request w
      = (netOutcome (net request), { w with netLog := w.netLog ++ [request] }) := by
  simp only [cachesMatch, Settled.fulfilled.injEq] at h
  simp [fetchListener, Promise.andThen, cachesMatch, h, fetch]

/-- C1. Cache-hit path: when the cache lookup finds a stored response, the
fetch listener responds with exactly that response and leaves the world, and
so the log of network calls, as it was: no network call is initiated. -/
theorem C1_fetch_hit (net : Net) (request : Url) (w : World) (stored : Response)
    (h : (cachesMatch request w).1 = Settled.fulfilled (some stored)) :
    fetchListener net request w = (Settled.fulfilled stored, w)
      ∧ (fetchListener net request w).2.netLog = w.netLog := by
  simp only [cachesMatch, Settled.fulfilled.injEq] at h
  simp [fetchListener, Promise.andThen, cachesMatch, h, Promise.resolve]

/-- C1 at a concrete input: `"/"` is stored in an older bucket only. -/
theorem C1_fetch_hit_witness :
    (cachesMatch "/" sampleWorld).1 = Settled.fulfilled (some ⟨200, "old"⟩)
      ∧ fetchListener sampleNet "/" sampleWorld = (Settled.fulfilled ⟨200, "old"⟩, sampleWorld)
      ∧ (fetchListener sampleNet "/" sampleWorld).2.netLog = sampleWorld.netLog :=
  ⟨by decide, C1_fetch_hit sampleNet "/" sampleWorld ⟨200, "old"⟩ (by decide)⟩

/-- C2. Cache-miss path: when the cache lookup finds no stored response, the
fetch listener adds exactly one network call to the log, for that same
request, and its response is the outcome of that call. -/
theorem C2_fetch_miss (net : Net) (request : Url) (w : World)
    (h : (cachesMatch request w).1 = Settled.fulfilled none) :
    (fetchListener net request w).2.netLog = w.netLog ++ [request]
      ∧ (fetchListener net request w).2.netLog.length = w.netLog.length + 1
      ∧ (fetchListener net request w).1 = netOutcome (net request)
      ∧ (fetchListener net request w).1 = (fetch net request w).1 := by
  rw [fetchListener_miss net request w h]
  simp [fetch]

/-- C2 at a concrete input: `"/a"` is stored in no bucket. -/
theorem C2_fetch_miss_witness :
    (cachesMatch "/a" sampleWorld).1 = Settled.fulfilled none
      ∧ (fetchListener sampleNet "/a" sampleWorld).2.netLog = sampleWorld.netLog ++ ["/a"]
      ∧ (fetchListener sampleNet "/a" sampleWorld).2.netLog.length = sampleWorld.netLog.length + 1
      ∧ (fetchListener sampleNet "/a" sampleWorld).1 = netOutcome (sampleNet "/a")
      ∧ (fetchListener sampleNet "/a" sampleWorld).1 = (fetch sampleNet "/a" sampleWorld).1 :=
  ⟨by decide, C2_fetch_miss sampleNet "/a" sampleWorld (by decide)⟩

/-- C5. The fetch listener never changes the cache storage, whatever the
request and the network; so a request that missed the cache misses again
when it is repeated (on any network), and each of the two runs adds exactly
one network call, for that request. -/
theorem C5_fetch_keeps_cache (net net2 : Net) (request : Url) (w : World) :
    (fetchListener net request w).2.caches = w.caches
      ∧ ((cachesMatch request w).1 = Settled.fulfilled none →
          (cachesMatch request (fetchListener net request w).2).1 = Settled.fulfilled none
          ∧ (fetchListener net request w).2.netLog = w.netLog ++ [request]
          ∧ (fetchListener net2 request (fetchListener net request w).2).2.netLog
              = w.netLog ++ [request] ++ [request]
          ∧ (fetchListener net2 request (fetchListener net request w).2).2.caches = w.caches) := by
  refine ⟨fetchListener_caches net request w, fun h => ?_⟩
  have h1 : (cachesMatch request (fetchListener net request w).2).1 = Settled.fulfilled none := by
    simpa [cachesMatch, fetchListener_caches] using h
  refine ⟨h1, ?_, ?_, ?_⟩
  · rw [fetchListener_miss net request w h]
  · rw [fetchListener_miss net2 request _ h1, fetchListener_miss net request w h]
  · rw [fetchListener_caches, fetchListener_caches]

/-- C8. A failed network call after a cache miss is the listener's result:
the response promise is rejected with the failure of the fetch, it is not
fulfilled with any response, and the log grew by that one call only. -/
theorem C8_fetch_failure (net : Net) (request : Url) (w : World)
    (hmiss : (cachesMatch request w).1 = Settled.fulfilled none)
    (hfail : net request = none) :
    (fetchListener net request w).1 = Settled.rejected fetchError
      ∧ (∀ r : Response, (fetchListener net request w).1 ≠ Settled.fulfilled r)
      ∧ (fetchListener net request w).2.netLog = w.netLog ++ [request]
      ∧ (fetchListener net request w).2.caches = w.caches := by
  rw [fetchListener_miss net request w hmiss, hfail]
  simp [netOutcome]

/-- C8 at a concrete input: `"/missing"` is neither stored nor reachable. -/
theorem C8_fetch_failure_witness :
    (cachesMatch "/missing" sampleWorld).1 = Settled.fulfilled none
      ∧ sampleNet "/missing" = none
      ∧ (fetchListener sampleNet "/missing" sampleWorld).1 = Settled.rejected fetchError
      ∧ (∀ r : Response, (fetchListener sampleNet "/missing" sampleWorld).1 ≠ Settled.fulfilled r)
      ∧ (fetchListener sampleNet "/missing" sampleWorld).2.netLog = sampleWorld.netLog ++ ["/missing"]
      ∧ (fetchListener sampleNet "/missing" sampleWorld).2.caches = sampleWorld.caches :=
  ⟨by decide, by decide,
    C8_fetch_failure sampleNet "/missing" sampleWorld (by decide) (by decide)⟩

/-- C10. The lookup of the fetch listener is not restricted to the bucket
`milk-diary-v1`: whenever any bucket of the storage holds a response for the
request, the listener is fulfilled with a response stored in one of the
buckets and changes nothing (no network call); and there is a storage in
which `milk-diary-v1` holds no entry for a request, a bucket with another
name does, and the listener answers with that bucket's response without a
network call. -/
theorem C10_lookup_every_bucket :
    (∀ (net : Net) (request : Url) (w : World),
        (∃ b ∈ w.caches, (cacheMatch b.2 request).isSome = true) →
        ∃ stored, fetchListener net request w = (Settled.fulfilled stored, w)
          ∧ ∃ b ∈ w.caches, cacheMatch b.2 request = some stored)
      ∧ ∃ (w : World) (request : Url) (stored : Response),
          cacheMatch (bucketEntries w.caches CACHE) request = none
          ∧ (∃ b ∈ w.caches, b.1 ≠ CACHE ∧ cacheMatch b.2 request = some stored)
          ∧ ∀ net : Net, fetchListener net request w = (Settled.fulfilled stored, w)
              ∧ (fetchListener net request w).2.netLog = w.netLog := by
  constructor
  · intro net request w hb
    cases hf : w.caches.findSome? (fun b => cacheMatch b.2 request) with
    | none =>
      obtain ⟨b, hbm, hbs⟩ := hb
      rw [List.findSome?_eq_none_iff] at hf
      rw [hf b hbm] at hbs
      simp at hbs
    | some stored =>
      refine ⟨stored, ?_, ?_⟩
      · simp [fetchListener, Promise.andThen, cachesMatch, hf, Promise.resolve]
      · obtain ⟨b, hbm, hbs⟩ := List.exists_of_findSome?_eq_some hf
        exact ⟨b, hbm, hbs⟩
  · refine ⟨sampleWorld, "/", ⟨200, "old"⟩, by decide, ?_, ?_⟩
    · exact ⟨("milk-diary-v0", [("/", ⟨200, "old"⟩)]), by decide, by decide, by decide⟩
    · intro net
      simp [fetchListener, Promise.andThen, cachesMatch, sampleWorld, cacheMatch, Promise.resolve]

/-! ## The install listener -/

/-- When every URL is fetched successfully, `fetchAll` delivers one pair per
URL, in order, each holding the response of the network. -/
theorem fetchAll_of_ok (net : Net) :
    ∀ us : List Url, (∀ u ∈ us, fetchedOk net u = true) →
      ∃ es, fetchAll net us = some es ∧ es.map Prod.fst = us
        ∧ ∀ e ∈ es, net e.1 = some e.2 := by
  intro us
  induction us with
  | nil => intro _; exact ⟨[], rfl, rfl, by simp⟩
  | cons u us ih =>
    intro h
    obtain ⟨es, hes, hkeys, hnet⟩ := ih (fun v hv => h v (List.mem_cons_of_mem _ hv))
    have hu := h u (List.mem_cons_self _ _)
    unfold fetchedOk at hu
    cases hn : net u with
    | none => simp [hn] at hu
    | some r =>
      simp only [hn] at hu
      refine ⟨(u, r) :: es, ?_, ?_, ?_⟩
      · simp [fetchAll, hn, hu, hes]
      · simp [hkeys]
      · intro e he
        rcases List.mem_cons.mp he with rfl | he
        · exact hn
        · exact hnet e he

/-- When some URL is not fetched successfully, `fetchAll` delivers nothing. -/
theorem fetchAll_of_fail (net : Net) :
    ∀ us : List Url, (∃ u ∈ us, fetchedOk net u = false) → fetchAll net us = none := by
  intro us
  induction us with
  | nil => rintro ⟨u, hu, _⟩; simp at hu
  | cons v us ih =>
    rintro ⟨u, hu, hf⟩
    cases hn : net v with
    | none => simp [fetchAll, hn]
    | some r =>
      cases hr : r.ok with
      | false => simp [fetchAll, hn, hr]
      | true =>
        rcases List.mem_cons.mp hu with rfl | hu
        · simp [fetchedOk, hn, hr] at hf
        · simp [fetchAll, hn, hr, ih ⟨u, hu, hf⟩]

/-- Storing pairs with pairwise distinct keys one after the other: the old
entries with one of these keys are dropped, the new pairs are appended in
order. -/
theorem foldl_cachePut (es : List (Url × Response)) :
    ∀ c : Cache, (es.map Prod.fst).Nodup →
      es.foldl (fun c e => cachePut c e.1 e.2) c
        = c.filter (fun e => decide (e.1 ∉ es.map Prod.fst)) ++ es := by
  induction es with
  | nil => intro c _; simp
  | cons e es ih =>
    intro c hd
    rw [List.map_cons, List.nodup_cons] at hd
    rw [List.foldl_cons, ih _ hd.2]
    have he : decide (e.1 ∉ es.map Prod.fst) = true := by simpa using hd.1
    simp only [cachePut, List.filter_append, List.filter_filter, List.filter_cons, List.filter_nil,
      he, if_true, List.append_assoc, List.singleton_append, List.map_cons, List.mem_cons]
    congr 1
    apply List.filter_congr
    intro x _
    by_cases h1 : x.1 = e.1 <;> simp [h1]

/-- A lookup in a list of pairs, one step. -/
theorem lookup_cons_ite {β : Type} (a k : String) (b : β) (es : List (String × β)) :
    List.lookup a ((k, b) :: es) = if a = k then some b else List.lookup a es := by
  rw [List.lookup_cons]
  by_cases h : a = k
  · simp [h]
  · have hb : (a == k) = false := by simpa using h
    simp [h, hb]

/-- After `setBucket`, an existing bucket holds the new contents. -/
theorem lookup_setBucket_self (name : String) (c : Cache) :
    ∀ cs : CacheStorage, (cs.lookup name).isSome = true →
      (setBucket cs name c).lookup name = some c := by
  intro cs
  induction cs with
  | nil => intro h; simp at h
  | cons b cs ih =>
    obtain ⟨n, c0⟩ := b
    intro h
    by_cases hn : n = name
    · subst hn; simp [setBucket, lookup_cons_ite]
    · have hn2 : ¬ name = n := fun e => hn e.symm
      simp only [lookup_cons_ite, hn2, if_false] at h
      simp [setBucket, lookup_cons_ite, hn, hn2, ih h]

/-- A call of `setBucket` leaves the buckets of another name alone. -/
theorem lookup_setBucket_other (name other : String) (c : Cache) (hne : other ≠ name) :
    ∀ cs : CacheStorage, (setBucket cs name c).lookup other = cs.lookup other := by
  intro cs
  induction cs with
  | nil => simp [setBucket]
  | cons b cs ih =>
    obtain ⟨n, c0⟩ := b
    by_cases hn : n = name
    · subst hn; simp [setBucket, lookup_cons_ite, hne]
    · by_cases ho : other = n
      · subst ho; simp [setBucket, lookup_cons_ite, hn]
      · simp [setBucket, lookup_cons_ite, hn, ho, ih]

/-- The promise of `caches.open` is fulfilled with the handle. -/
theorem cachesOpen_fst (name : String) (w : World) :
    (cachesOpen name w).1 = Settled.fulfilled name := by
  unfold cachesOpen
  cases w.caches.lookup name <;> rfl

/-- After `caches.open` the bucket exists. -/
theorem cachesOpen_exists (name : String) (w : World) :
    ((cachesOpen name w).2.caches.lookup name).isSome = true := by
  unfold cachesOpen
  cases h : w.caches.lookup name with
  | some c => simp [h]
  | none => simp [List.lookup_append, h, lookup_cons_ite]

/-- The storage after `caches.open`: unchanged, or one empty bucket more. -/
theorem cachesOpen_caches (name : String) (w : World) :
    (cachesOpen name w).2.caches = w.caches
      ∨ (cachesOpen name w).2.caches = w.caches ++ [(name, [])] := by
  unfold cachesOpen
  cases h : w.caches.lookup name with
  | some c => left; rfl
  | none => right; rfl

/-- The call `caches.open` does not touch the network log. -/
theorem cachesOpen_netLog (name : String) (w : World) :
    (cachesOpen name w).2.netLog = w.netLog := by
  unfold cachesOpen
  cases h : w.caches.lookup name <;> rfl

/-- The call `caches.open` changes the entries of no bucket. -/
theorem cachesOpen_entries (name n : String) (w : World) :
    bucketEntries (cachesOpen name w).2.caches n = bucketEntries w.caches n := by
  unfold cachesOpen bucketEntries
  cases h : w.caches.lookup name with
  | some c => rfl
  | none =>
    by_cases hn : n = name
    · subst hn; simp [List.lookup_append, h, lookup_cons_ite]
    · cases h2 : w.caches.lookup n <;> simp [List.lookup_append, h2, lookup_cons_ite, hn]

/-- An empty bucket appended to the storage answers no lookup. -/
theorem findSome_append_empty (request : Url) (name : String) (cs : CacheStorage) :
    (cs ++ [(name, [])]).findSome? (fun b : String × Cache => cacheMatch b.2 request)
      = cs.findSome? (fun b : String × Cache => cacheMatch b.2 request) := by
  simp [List.findSome?_append, cacheMatch]

/-- The install listener is `addAll` run on the world `caches.open` leaves. -/
theorem installListenerWith_eq (cacheName : String) (assets : List Url) (net : Net) (w : World) :
    installListenerWith cacheName assets net w
      = addAll net cacheName assets (cachesOpen cacheName w).2 := by
  have h := cachesOpen_fst cacheName w
  unfold installListenerWith Promise.andThen
  generalize cachesOpen cacheName w = res at h
  obtain ⟨st, w1⟩ := res
  simp only at h
  subst h
  rfl

/-- The install listener when all assets are fetched successfully and are
pairwise distinct: it is fulfilled, and the bucket then holds its old
entries for other URLs followed by one entry per asset, in order. -/
theorem install_ok (cacheName : String) (assets : List Url) (net : Net) (w : World)
    (hd : assets.Nodup) (hok : ∀ u ∈ assets, fetchedOk net u = true) :
    ∃ es, es.map Prod.fst = assets ∧ (∀ e ∈ es, net e.1 = some e.2)
      ∧ (installListenerWith cacheName assets net w).1 = Settled.fulfilled ()
      ∧ bucketEntries (installListenerWith cacheName assets net w).2.caches cacheName
          = (bucketEntries w.caches cacheName).filter (fun e => decide (e.1 ∉ assets)) ++ es := by
  obtain ⟨es, hes, hkeys, hnet⟩ := fetchAll_of_ok net assets hok
  refine ⟨es, hkeys, hnet, ?_, ?_⟩
  · simp [installListenerWith_eq, addAll, hes, hd]
  · have hk : (es.map Prod.fst).Nodup := by rw [hkeys]; exact hd
    simp only [installListenerWith_eq, addAll, hes, hd, if_true]
    unfold bucketEntries
    rw [lookup_setBucket_self _ _ _ (cachesOpen_exists cacheName w)]
    have := cachesOpen_entries cacheName cacheName w
    unfold bucketEntries at this
    rw [Option.getD_some, foldl_cachePut es _ hk, this, hkeys]

/-- The install listener when some asset is not fetched successfully: it is
rejected, and the storage is the one `caches.open` left. -/
theorem install_fail (cacheName : String) (assets : List Url) (net : Net) (w : World)
    (hfail : ∃ u ∈ assets, fetchedOk net u = false) :
    (installListenerWith cacheName assets net w).1 = Settled.rejected "TypeError: Request failed"
      ∧ (installListenerWith cacheName assets net w).2.caches = (cachesOpen cacheName w).2.caches := by
  simp [installListenerWith_eq, addAll, fetchAll_of_fail net assets hfail]

/-- Entries whose keys were filtered out are not found. -/
theorem lookup_filter_notin (u : Url) (keys : List Url) (hu : u ∈ keys) :
    ∀ c : Cache, List.lookup u (c.filter (fun e => decide (e.1 ∉ keys))) = none := by
  intro c
  induction c with
  | nil => rfl
  | cons e c ih =>
    obtain ⟨k, r⟩ := e
    by_cases hk : k ∈ keys
    · simp only [List.filter_cons, hk, not_true_eq_false, decide_False, Bool.false_eq_true,
        if_false]
      exact ih
    · have hne : ¬ u = k := fun e => hk (e ▸ hu)
      simp only [List.filter_cons, hk, not_false_eq_true, decide_True, if_true, lookup_cons_ite,
        hne, if_false]
      exact ih

/-- In a list of pairs that all hold the response of the network, a listed
key is found with the response of the network. -/
theorem lookup_of_net (net : Net) (u : Url) :
    ∀ es : List (Url × Response), (∀ e ∈ es, net e.1 = some e.2) → u ∈ es.map Prod.fst →
      List.lookup u es = net u := by
  intro es
  induction es with
  | nil => intro _ hu; simp at hu
  | cons e es ih =>
    obtain ⟨k, r⟩ := e
    intro hnet hu
    by_cases hk : u = k
    · subst hk
      simp [lookup_cons_ite, hnet (u, r) (List.mem_cons_self _ _)]
    · have hu2 : u ∈ es.map Prod.fst := by
        rcases List.mem_cons.mp hu with h | h
        · exact absurd h hk
        · exact h
      simp only [lookup_cons_ite, hk, if_false]
      exact ih (fun e he => hnet e (List.mem_cons_of_mem _ he)) hu2

/-- C3. Install postcondition: from every starting world and on every
network that delivers an ok response for each of the four listed assets, the
install listener is fulfilled, and afterwards a lookup of each listed URL in
the bucket `milk-diary-v1` finds a stored response, namely the one the network
delivered for that URL. -/
theorem C3_install_postcondition (net : Net) (w : World)
    (hok : ∀ u ∈ ASSETS, fetchedOk net u = true) :
    ASSETS = ["/", "/static/css/app.css", "/static/js/pwa.js", "/static/manifest.webmanifest"]
      ∧ CACHE = "milk-diary-v1"
      ∧ (installListener net w).1 = Settled.fulfilled ()
      ∧ ∀ u ∈ ASSETS,
          (cacheMatch (bucketEntries (installListener net w).2.caches CACHE) u).isSome = true
          ∧ cacheMatch (bucketEntries (installListener net w).2.caches CACHE) u = net u := by
  obtain ⟨es, hkeys, hnet, hres, hent⟩ :=
    install_ok CACHE ASSETS net w (by decide) hok
  refine ⟨rfl, rfl, hres, ?_⟩
  intro u hu
  have hfound : cacheMatch (bucketEntries (installListener net w).2.caches CACHE) u = net u := by
    unfold installListener cacheMatch
    rw [hent, List.lookup_append, lookup_filter_notin u ASSETS hu]
    simpa using lookup_of_net net u es hnet (by rw [hkeys]; exact hu)
  refine ⟨?_, hfound⟩
  rw [hfound]
  have h := hok u hu
  unfold fetchedOk at h
  cases hn : net u with
  | none => simp [hn] at h
  | some r => rfl

/-- C3 at a concrete input: a network that serves all four assets. -/
theorem C3_install_postcondition_witness :
    (∀ u ∈ ASSETS, fetchedOk sampleNet u = true)
      ∧ ASSETS = ["/", "/static/css/app.css", "/static/js/pwa.js", "/static/manifest.webmanifest"]
      ∧ CACHE = "milk-diary-v1"
      ∧ (installListener sampleNet sampleWorld).1 = Settled.fulfilled ()
      ∧ ∀ u ∈ ASSETS,
          (cacheMatch (bucketEntries (installListener sampleNet sampleWorld).2.caches CACHE) u).isSome
              = true
          ∧ cacheMatch (bucketEntries (installListener sampleNet sampleWorld).2.caches CACHE) u
              = sampleNet u :=
  ⟨by decide, C3_install_postcondition sampleNet sampleWorld (by decide)⟩

/-- C4. Install is all-or-nothing: from every starting world and on every
network that fails to deliver an ok response for at least one listed asset,
the install listener is rejected, and no entry was added: every bucket has
exactly the entries it had before (the storage is the old one, at most with
the bucket `milk-diary-v1` created empty), so every lookup answers as before,
also for the assets whose fetch succeeded. -/
theorem C4_install_all_or_nothing (net : Net) (w : World)
    (hfail : ∃ u ∈ ASSETS, fetchedOk net u = false) :
    (∃ reason, (installListener net w).1 = Settled.rejected reason)
      ∧ (∀ r : Unit, (installListener net w).1 ≠ Settled.fulfilled r)
      ∧ (∀ name, bucketEntries (installListener net w).2.caches name = bucketEntries w.caches name)
      ∧ ((installListener net w).2.caches = w.caches
          ∨ (installListener net w).2.caches = w.caches ++ [(CACHE, [])])
      ∧ (∀ request, (cachesMatch request (installListener net w).2).1 = (cachesMatch request w).1)
      ∧ (∀ u ∈ ASSETS, cacheMatch (bucketEntries (installListener net w).2.caches CACHE) u
            = cacheMatch (bucketEntries w.caches CACHE) u) := by
  obtain ⟨hres, hcaches⟩ := install_fail CACHE ASSETS net w hfail
  have hentries : ∀ name,
      bucketEntries (installListener net w).2.caches name = bucketEntries w.caches name := by
    intro name
    unfold installListener
    rw [hcaches, cachesOpen_entries]
  refine ⟨⟨_, hres⟩, ?_, hentries, ?_, ?_, ?_⟩
  · intro r
    unfold installListener
    rw [hres]
    simp
  · unfold installListener
    rw [hcaches]
    exact cachesOpen_caches CACHE w
  · intro request
    unfold installListener cachesMatch
    rw [hcaches]
    rcases cachesOpen_caches CACHE w with h | h
    · rw [h]
    · rw [h, findSome_append_empty]
  · intro u _
    rw [hentries]

/-- C4 at a concrete input: a network on which one asset is unreachable. -/
theorem C4_install_all_or_nothing_witness :
    (∃ u ∈ ASSETS, fetchedOk flakyNet u = false)
      ∧ ((∃ reason, (installListener flakyNet sampleWorld).1
            = Settled.rejected reason)
        ∧ (∀ r : Unit, (installListener flakyNet sampleWorld).1
            ≠ Settled.fulfilled r)
        ∧ (∀ name, bucketEntries (installListener flakyNet sampleWorld).2.caches name
            = bucketEntries sampleWorld.caches name)
        ∧ ((installListener flakyNet sampleWorld).2.caches
              = sampleWorld.caches
          ∨ (installListener flakyNet sampleWorld).2.caches
              = sampleWorld.caches ++ [(CACHE, [])])
        ∧ (∀ request, (cachesMatch request (installListener flakyNet sampleWorld).2).1
            = (cachesMatch request sampleWorld).1)
        ∧ (∀ u ∈ ASSETS, cacheMatch (bucketEntries (installListener flakyNet sampleWorld).2.caches CACHE) u
            = cacheMatch (bucketEntries sampleWorld.caches CACHE) u)) :=
  ⟨by decide, C4_install_all_or_nothing flakyNet sampleWorld (by decide)⟩

/-- C6. Install populates exactly the asset list: for every list of
pairwise distinct paths, on a network that delivers an ok response for each
of them, and starting with the bucket empty, the install listener run with
that list is fulfilled and leaves the bucket with exactly as many entries as
the list has paths, whose keys are exactly the paths of the list (in order,
none other), each with the response of the network; for the list
`["/", "/static/css/app.css"]` that is exactly 2 entries. -/
theorem C6_install_exactly_assets (assets : List Url) (net : Net) (w : World)
    (hd : assets.Nodup) (hok : ∀ u ∈ assets, fetchedOk net u = true)
    (hempty : bucketEntries w.caches CACHE = []) :
    (installListenerWith CACHE assets net w).1 = Settled.fulfilled ()
      ∧ (bucketEntries (installListenerWith CACHE assets net w).2.caches CACHE).length
          = assets.length
      ∧ (bucketEntries (installListenerWith CACHE assets net w).2.caches CACHE).map Prod.fst
          = assets
      ∧ (∀ e ∈ bucketEntries (installListenerWith CACHE assets net w).2.caches CACHE,
          e.1 ∈ assets ∧ net e.1 = some e.2)
      ∧ (assets = ["/", "/static/css/app.css"] →
          (bucketEntries (installListenerWith CACHE assets net w).2.caches CACHE).length = 2) := by
  obtain ⟨es, hkeys, hnet, hres, hent⟩ := install_ok CACHE assets net w hd hok
  rw [hempty, List.filter_nil, List.nil_append] at hent
  have hlen : es.length = assets.length := by rw [← hkeys, List.length_map]
  rw [hent]
  refine ⟨hres, hlen, hkeys, ?_, ?_⟩
  · intro e he
    refine ⟨?_, hnet e he⟩
    rw [← hkeys]
    exact List.mem_map_of_mem Prod.fst he
  · intro ha
    rw [hlen, ha]
    rfl

/-- C6 at the concrete scenario: two paths, both served, no bucket yet. -/
theorem C6_install_exactly_assets_witness :
    (["/", "/static/css/app.css"] : List Url).Nodup
      ∧ (∀ u ∈ (["/", "/static/css/app.css"] : List Url), fetchedOk sampleNet u = true)
      ∧ bucketEntries freshWorld.caches CACHE = []
      ∧ (bucketEntries
          (installListenerWith CACHE ["/", "/static/css/app.css"] sampleNet freshWorld).2.caches
          CACHE).length = 2
      ∧ (bucketEntries
          (installListenerWith CACHE ["/", "/static/css/app.css"] sampleNet freshWorld).2.caches
          CACHE).map Prod.fst = ["/", "/static/css/app.css"] :=
  ⟨by decide, by decide, by decide,
    (C6_install_exactly_assets ["/", "/static/css/app.css"] sampleNet freshWorld
      (by decide) (by decide) (by decide)).2.2.2.2 rfl,
    (C6_install_exactly_assets ["/", "/static/css/app.css"] sampleNet freshWorld
      (by decide) (by decide) (by decide)).2.2.1⟩

/-! ## The bootstrap hook -/

/-- The load listener makes one registration call, for the fixed path, and
changes nothing else, however the registration settles. -/
theorem loadListener_eq (env : Browser) (p : Page) :
    loadListener env p = { p with registerCalls := p.registerCalls ++ [workerPath] } := by
  unfold loadListener floating Promise.catchWith Promise.andThen register
  cases env.registerResult workerPath <;> rfl

/-- C7. Registration count: where `navigator` exposes `serviceWorker`, one
page load makes exactly one registration call, with the fixed path
`/static/service-worker.js`; where it does not, the page load makes no
registration call. -/
theorem C7_register_once (env : Browser) (p : Page) :
    workerPath = "/static/service-worker.js"
      ∧ (pageLoad env p).registerCalls
          = (if env.hasServiceWorker then p.registerCalls ++ ["/static/service-worker.js"]
              else p.registerCalls)
      ∧ (pageLoad env p).registerCalls.length
          = (if env.hasServiceWorker then p.registerCalls.length + 1 else p.registerCalls.length) := by
  refine ⟨rfl, ?_, ?_⟩ <;>
    cases h : env.hasServiceWorker <;>
    simp [pageLoad, pwa, h, dispatchEvent, addEventListener, loadListener_eq, workerPath]

/-- C9. The registration outcome is swallowed: with the capability present,
whether the registration call is fulfilled or rejected, the page load
reports no error to the page, writes nothing to the console, makes that one
registration call and no other, and leaves the same page state in both
cases. -/
theorem C9_outcome_swallowed (reg : Registration) (reason : String) (p : Page) :
    pageLoad ⟨true, fun _ => Settled.fulfilled reg⟩ p
        = pageLoad ⟨true, fun _ => Settled.rejected reason⟩ p
      ∧ (∀ result : String → Settled Registration,
          (pageLoad ⟨true, result⟩ p).errors = p.errors
          ∧ (pageLoad ⟨true, result⟩ p).console = p.console
          ∧ (pageLoad ⟨true, result⟩ p).registerCalls = p.registerCalls ++ [workerPath]
          ∧ pageLoad ⟨true, result⟩ p
              = { p with registerCalls := p.registerCalls ++ [workerPath] }) := by
  have h : ∀ result : String → Settled Registration,
      pageLoad ⟨true, result⟩ p = { p with registerCalls := p.registerCalls ++ [workerPath] } := by
    intro result
    simp [pageLoad, pwa, dispatchEvent, addEventListener, loadListener_eq]
  refine ⟨by rw [h, h], fun result => ?_⟩
  rw [h]
  exact ⟨rfl, rfl, rfl, rfl⟩

end MilkDiary
